import Mathlib

/-!
Verification of `add_sdw_variants_to_nnunetv2_plans.py` (UNet-Benchmark).

The script edits a JSON "plans" document: for each of 18 triplets
(S, D, W) it deep-copies the base configuration `3d_fullres`, rewrites
a few fields under `architecture.arch_kwargs`, and inserts the result
under the name `3d_fullres_S{S}D{D}W{W}`.  We embed the JSON data model
as an inductive `JVal` with insertion-ordered association lists for
objects (matching Python dict semantics: assignment to an existing key
keeps its position, a new key is appended at the end), and translate
the script's logic into pure functions on it.
-/

namespace UNetBench

/-- JSON-like values, the data model of the plans document. -/
inductive JVal where
  | num (n : Int)
  | str (s : String)
  | bool (b : Bool)
  | null
  | arr (xs : List JVal)
  | obj (fields : List (String × JVal))

/-- Lookup in an object's field list (first occurrence), `d.get(k)`. -/
def dLookup : List (String × JVal) → String → Option JVal
  | [], _ => none
  | (k0, v0) :: rest, k => if k0 = k then some v0 else dLookup rest k

/-- Python dict assignment `d[k] = v`: update the existing binding in
place (keeping its position), else append at the end. -/
def dInsert : List (String × JVal) → String → JVal → List (String × JVal)
  | [], k, v => [(k, v)]
  | (k0, v0) :: rest, k, v =>
      if k0 = k then (k0, v) :: rest else (k0, v0) :: dInsert rest k v

/-- `v.get(k)` when `v` is an object; `none` otherwise. -/
def objGet (v : JVal) (k : String) : Option JVal :=
  match v with
  | .obj fs => dLookup fs k
  | _ => none

/-- View a value as an array's element list (`[]` if not an array). -/
def asArr : JVal → List JVal
  | .arr xs => xs
  | _ => []

/-- The fallback kernel-size stage descriptor `[3, 3, 3]`. -/
def defaultKernel : JVal := .arr [.num 3, .num 3, .num 3]

/-- The fallback stride stage descriptor `[2, 2, 2]`. -/
def defaultStride : JVal := .arr [.num 2, .num 2, .num 2]

/-- The width schedule loop (script lines 102-107): starting from
`cur`, emit `min cur 512` and double with cap 512, for `n` stages.
(The script guards the final doubling with `if i < S - 1`, but that
update is dead in the last iteration, so the result is the same.) -/
def featsGo (cur : Nat) : Nat → List Nat
  | 0 => []
  | n + 1 => min cur 512 :: featsGo (min (cur * 2) 512) n

/-- Embed a natural number as a JSON number. -/
def jOfNat (n : Nat) : JVal := .num (Int.ofNat n)

/-- The diagnostic printed when `architecture.arch_kwargs` is missing. -/
def fmtErrMsg : String := "Unexpected plans format: missing architecture.arch_kwargs"

/-- The diagnostic printed when `3d_fullres` is missing. -/
def baseErrMsg : String := "3d_fullres configuration not found in plans"

/-- The paper-aligned edits applied to a copy of the base entry's
`arch_kwargs` dict (script lines 94-130): set `n_stages`, the width
schedule, the conv counts, and reconcile `kernel_sizes` / `strides`. -/
def editAK (S D W : Nat) (ak : List (String × JVal)) : List (String × JVal) :=
  let ak1 := dInsert ak "n_stages" (.num S)
  let ak2 := dInsert ak1 "features_per_stage" (.arr ((featsGo W S).map jOfNat))
  let ak3 := dInsert ak2 "n_conv_per_stage" (.arr (List.replicate S (.num D)))
  let ak4 := dInsert ak3 "n_conv_per_stage_decoder" (.arr (List.replicate (S - 1) (.num D)))
  let ks := asArr ((dLookup ak4 "kernel_sizes").getD (.arr []))
  let st := asArr ((dLookup ak4 "strides").getD (.arr []))
  if ks.length ≠ S ∨ st.length ≠ S then
    let lastK := ks.getLastD defaultKernel
    let lastS := st.getLastD defaultStride
    if S > ks.length then
      dInsert (dInsert ak4 "kernel_sizes" (.arr (ks ++ List.replicate (S - ks.length) lastK)))
        "strides" (.arr (st ++ List.replicate (S - st.length) lastS))
    else
      dInsert (dInsert ak4 "kernel_sizes" (.arr (ks.take S))) "strides" (.arr (st.take S))
  else ak4

/-- Derivation of one variant from the base entry (script lines 85-130):
deep-copy the base (value semantics here), require the
`architecture.arch_kwargs` substructure, and apply the edits.  (In
Python a non-dict at either level raises, which is also fatal; we fold
both into the `Error:` termination.) -/
def derive (S D W : Nat) (base : JVal) : Except String JVal :=
  match base with
  | .obj bfs =>
    match dLookup bfs "architecture" with
    | some (.obj afs) =>
      match dLookup afs "arch_kwargs" with
      | some (.obj ak) =>
          .ok (.obj (dInsert bfs "architecture"
            (.obj (dInsert afs "arch_kwargs" (.obj (editAK S D W ak))))))
      | _ => .error fmtErrMsg
    | _ => .error fmtErrMsg
  | _ => .error fmtErrMsg

/-- `config_name = "3d_fullres_S{S}D{D}W{W}"`. -/
def nameOf (t : Nat × Nat × Nat) : String :=
  "3d_fullres_S" ++ toString t.1 ++ "D" ++ toString t.2.1 ++ "W" ++ toString t.2.2

/-- The 18 (S, D, W) triplets, S outer, D middle, W inner. -/
def tripletsList : List (Nat × Nat × Nat) :=
  [4, 5, 6].flatMap fun S => [2, 3].flatMap fun D => [16, 32, 64].map fun W => (S, D, W)

/-- The generation loop (script lines 77-135) over the evolving
`configurations` dict: skip names that already exist, otherwise derive
and insert; count additions and skips. -/
def genLoop (base : JVal) :
    List (Nat × Nat × Nat) → List (String × JVal) → Nat → Nat →
      Except String (List (String × JVal) × Nat × Nat)
  | [], configs, added, skipped => .ok (configs, added, skipped)
  | t :: rest, configs, added, skipped =>
    if (dLookup configs (nameOf t)).isSome then
      genLoop base rest configs added (skipped + 1)
    else
      match derive t.1 t.2.1 t.2.2 base with
      | .error e => .error e
      | .ok cfg => genLoop base rest (dInsert configs (nameOf t) cfg) (added + 1) skipped

/-- Write back the updated `configurations` dict into the document. -/
def setConfigs (doc : JVal) (configs : List (String × JVal)) : JVal :=
  match doc with
  | .obj dfs => .obj (dInsert dfs "configurations" (.obj configs))
  | _ => doc

/-- The in-memory generation pass (script lines 62-135): require a
`configurations` mapping containing `3d_fullres`, capture the base
entry once, run the loop, and return the updated document together
with the added and skipped counts. -/
def runGenerator (doc : JVal) : Except String (JVal × Nat × Nat) :=
  match objGet doc "configurations" with
  | some (.obj configs) =>
    match dLookup configs "3d_fullres" with
    | some base =>
      match genLoop base tripletsList configs 0 0 with
      | .error e => .error e
      | .ok (configs2, added, skipped) => .ok (setConfigs doc configs2, added, skipped)
    | none => .error baseErrMsg
  | _ => .error baseErrMsg

/-- The `configurations` field list of a document (empty if absent). -/
def configsOf (doc : JVal) : List (String × JVal) :=
  match objGet doc "configurations" with
  | some (.obj fs) => fs
  | _ => []

/-- Read a key of `architecture.arch_kwargs` of a configuration entry. -/
def akGet (cfg : JVal) (k : String) : Option JVal :=
  (objGet cfg "architecture").bind fun a => (objGet a "arch_kwargs").bind fun ak => objGet ak k

/-- `kernel_sizes` of an entry, as read by the script. -/
def ksOf (cfg : JVal) : List JVal := asArr ((akGet cfg "kernel_sizes").getD (.arr []))

/-- `strides` of an entry, as read by the script. -/
def stOf (cfg : JVal) : List JVal := asArr ((akGet cfg "strides").getD (.arr []))

/-- `features_per_stage` of an entry. -/
def featsOf (cfg : JVal) : List JVal := asArr ((akGet cfg "features_per_stage").getD (.arr []))

/-- `n_conv_per_stage` of an entry. -/
def nConvOf (cfg : JVal) : List JVal := asArr ((akGet cfg "n_conv_per_stage").getD (.arr []))

/-- `n_conv_per_stage_decoder` of an entry. -/
def nConvDecOf (cfg : JVal) : List JVal :=
  asArr ((akGet cfg "n_conv_per_stage_decoder").getD (.arr []))

/-- Whether an entry has the `architecture.arch_kwargs` substructure
(the validity condition of `derive`). -/
def hasAK : JVal → Bool
  | .obj bfs =>
    match dLookup bfs "architecture" with
    | some (.obj afs) =>
      match dLookup afs "arch_kwargs" with
      | some (.obj _) => true
      | _ => false
    | _ => false
  | _ => false

/-- Numeric view of a JSON value (0 if not a number). -/
def jnum : JVal → Nat
  | .num n => n.toNat
  | _ => 0

/-- `features_per_stage` of an entry, as natural numbers. -/
def featsNat (cfg : JVal) : List Nat := (featsOf cfg).map jnum

/-- The kernel-size and stride schedule lengths of a derived entry. -/
def ksStLens (r : Except String JVal) : Option (Nat × Nat) :=
  match r with
  | .ok c => some ((ksOf c).length, (stOf c).length)
  | .error _ => none

/-! ### Script-level model

The script's externally observable behaviour: the filesystem accesses
it performs, its exit code, and the `Error:` diagnostic printed by
`die` (script lines 26-28).  The backup copy is modelled on its
success path (on failure the script logs a warning and continues). -/

/-- Filesystem accesses performed by the script, in order. -/
inductive FileOp where
  | listDir
  | readPlans
  | writeBackup
  | writePlans
  deriving DecidableEq

/-- The observable outcome of one script invocation: exit code, the
`Error:` line (if any), the filesystem accesses, the on-disk plans
document after the run, and the added / skipped counts it reports. -/
structure ScriptResult where
  exitCode : Nat
  errLine : Option String
  ops : List FileOp
  disk : JVal
  added : Nat
  skipped : Nat

/-- `die(msg)`: print `Error: {msg}` and exit with status 1. -/
def die (msg : String) (ops : List FileOp) (disk : JVal) : ScriptResult :=
  ⟨1, some ("Error: " ++ msg), ops, disk, 0, 0⟩

/-- `p.startswith(s)`-style prefix test over the character lists (the
byte-level primitive is not reducible in proofs). -/
def strStarts (p s : String) : Bool := p.data.isPrefixOf s.data

/-- Zero-padded 3-digit formatting, `f"{id:03d}"` for naturals. -/
def pad3 (n : Nat) : String :=
  if n < 10 then "00" ++ toString n
  else if n < 100 then "0" ++ toString n
  else toString n

/-- The whole script run (function `main`): check the environment
variable, locate the dataset folder by prefix, check the plans file
exists, read it, run the generation pass, and write backup + document
only when at least one entry was added. -/
def runScript (env : Option String) (listing : List String) (datasetId : Nat)
    (plansExists : Bool) (disk : JVal) : ScriptResult :=
  match env with
  | none => die "nnUNet_preprocessed environment variable not set" [] disk
  | some dir =>
    if dir = "" then die "nnUNet_preprocessed environment variable not set" [] disk
    else
      match listing.find? fun f => strStarts ("Dataset" ++ pad3 datasetId) f with
      | none => die ("Dataset " ++ toString datasetId ++ " not found in " ++ dir) [.listDir] disk
      | some dsName =>
        if plansExists then
          match runGenerator disk with
          | .error e => die e [.listDir, .readPlans] disk
          | .ok (doc2, added, skipped) =>
            if 0 < added then
              ⟨0, none, [.listDir, .readPlans, .writeBackup, .writePlans], doc2, added, skipped⟩
            else
              ⟨0, none, [.listDir, .readPlans], disk, added, skipped⟩
        else
          die ("Plans file not found: " ++ dir ++ "/" ++ dsName ++ "/nnUNetPlans.json")
            [.listDir] disk

/-! ### Concrete documents used by witnesses and counterexamples -/

/-- The spec's end-to-end scenario base entry: `n_stages = 5`,
`features_per_stage = [32, 64, 128, 256, 320]`, 5-stage kernel-size
and stride schedules. -/
def wBase : JVal := .obj [("architecture", .obj [("arch_kwargs", .obj
  [("n_stages", .num 5),
   ("features_per_stage", .arr [.num 32, .num 64, .num 128, .num 256, .num 320]),
   ("n_conv_per_stage", .arr (List.replicate 5 (.num 2))),
   ("n_conv_per_stage_decoder", .arr (List.replicate 4 (.num 2))),
   ("kernel_sizes", .arr (List.replicate 5 defaultKernel)),
   ("strides", .arr (List.replicate 5 defaultStride))])])]

/-- A plans document holding only the base entry. -/
def wDoc : JVal := .obj [("configurations", .obj [("3d_fullres", wBase)])]

/-- The document produced by the first generation pass over `wDoc`. -/
def wOut : JVal :=
  match runGenerator wDoc with
  | .ok (d, _, _) => d
  | .error _ => .null

/-- A base entry whose `kernel_sizes` has 6 stage descriptors but
whose `strides` has only 3. -/
def c1Base : JVal := .obj [("architecture", .obj [("arch_kwargs", .obj
  [("kernel_sizes", .arr (List.replicate 6 defaultKernel)),
   ("strides", .arr (List.replicate 3 defaultStride))])])]

/-- A base entry whose `kernel_sizes` has 2 stage descriptors but
whose `strides` has 7. -/
def c2Base : JVal := .obj [("architecture", .obj [("arch_kwargs", .obj
  [("kernel_sizes", .arr (List.replicate 2 defaultKernel)),
   ("strides", .arr (List.replicate 7 defaultStride))])])]

/-- A base entry that lacks the `arch_kwargs` substructure. -/
def c5Base : JVal := .obj [("architecture", .obj [])]

/-- A document whose base entry lacks `arch_kwargs` while all 18
variant names are already present. -/
def c5Doc : JVal := .obj [("configurations", .obj
  (("3d_fullres", c5Base) :: tripletsList.map fun t => (nameOf t, JVal.num 0)))]

/-- A document whose base entry lacks `arch_kwargs`, with the first
variant name already present and the others absent: the generation
pass fails mid-loop, after one skip. -/
def c10Doc : JVal := .obj [("configurations", .obj
  [("3d_fullres", c5Base), ("3d_fullres_S4D2W16", .num 0)])]

/-- A document whose `configurations` mapping lacks `3d_fullres`. -/
def c5aDoc : JVal := .obj [("configurations", .obj [])]

/-- A document whose base entry lacks `arch_kwargs` and holds no
variant names. -/
def c5bDoc : JVal := .obj [("configurations", .obj [("3d_fullres", c5Base)])]

/-- The entry derived from the scenario base at (S, D, W) = (6, 2, 16). -/
def wC1cfg : JVal :=
  match derive 6 2 16 wBase with
  | .ok c => c
  | .error _ => .null

/-- The entry derived from the scenario base at (S, D, W) = (4, 3, 32). -/
def wC2cfg : JVal :=
  match derive 4 3 32 wBase with
  | .ok c => c
  | .error _ => .null

/-- The entry derived from the scenario base at (S, D, W) = (5, 2, 64). -/
def wC3cfg : JVal :=
  match derive 5 2 64 wBase with
  | .ok c => c
  | .error _ => .null

/-- The entry derived from the scenario base at (S, D, W) = (4, 2, 16). -/
def wC7cfg : JVal :=
  match derive 4 2 16 wBase with
  | .ok c => c
  | .error _ => .null

/-! ### Association-list lemmas -/

theorem dLookup_dInsert (m : List (String × JVal)) (k kq : String) (v : JVal) :
    dLookup (dInsert m k v) kq = if k = kq then some v else dLookup m kq := by
  induction m with
  | nil => simp [dInsert, dLookup]
  | cons p rest ih =>
    obtain ⟨k0, v0⟩ := p
    by_cases h0 : k0 = k
    · subst h0
      simp only [dInsert, if_pos rfl, dLookup]
      split_ifs <;> simp_all [dLookup]
    · simp only [dInsert, if_neg h0, dLookup, ih]
      split_ifs <;> simp_all

theorem dInsert_dInsert_self (m : List (String × JVal)) (k : String) (v w : JVal) :
    dInsert (dInsert m k v) k w = dInsert m k w := by
  induction m with
  | nil => simp [dInsert]
  | cons p rest ih =>
    obtain ⟨k0, v0⟩ := p
    by_cases h0 : k0 = k <;> simp [dInsert, h0, ih]

/-! ### Width-schedule lemmas -/

theorem featsGo_length (cur n : Nat) : (featsGo cur n).length = n := by
  induction n generalizing cur with
  | zero => rfl
  | succ m ih => simp [featsGo, ih]

theorem min_cap_mul (a i : Nat) : min (min a 512 * 2 ^ i) 512 = min (a * 2 ^ i) 512 := by
  rcases le_total a 512 with h | h
  · rw [min_eq_left h]
  · have hp : (0 : Nat) < 2 ^ i := pow_pos (by norm_num) i
    have h1 : (512 : Nat) ≤ 512 * 2 ^ i := Nat.le_mul_of_pos_right _ hp
    have h2 : (512 : Nat) ≤ a * 2 ^ i :=
      le_trans h1 (Nat.mul_le_mul_right _ h)
    rw [min_eq_right h, min_eq_right h1, min_eq_right h2]

theorem featsGo_eq (W S : Nat) :
    featsGo W S = (List.range S).map fun i => min (W * 2 ^ i) 512 := by
  induction S generalizing W with
  | zero => rfl
  | succ n ih =>
    rw [featsGo, List.range_succ_eq_map, List.map_cons, ih, List.map_map]
    refine congrArg₂ _ (by simp) ?_
    refine List.map_congr_left fun i _ => ?_
    show min (min (W * 2) 512 * 2 ^ i) 512 = min (W * 2 ^ (i + 1)) 512
    rw [min_cap_mul, pow_succ]
    ring_nf

/-! ### Structure of a successful derivation -/

theorem derive_ok_elim {S D W : Nat} {base cfg : JVal}
    (hok : derive S D W base = .ok cfg) :
    ∃ bfs afs ak, base = .obj bfs ∧
      dLookup bfs "architecture" = some (.obj afs) ∧
      dLookup afs "arch_kwargs" = some (.obj ak) ∧
      cfg = .obj (dInsert bfs "architecture"
        (.obj (dInsert afs "arch_kwargs" (.obj (editAK S D W ak))))) := by
  cases base with
  | num n => simp [derive] at hok
  | str s => simp [derive] at hok
  | bool b => simp [derive] at hok
  | null => simp [derive] at hok
  | arr xs => simp [derive] at hok
  | obj bfs =>
    simp only [derive] at hok
    rcases harch : dLookup bfs "architecture" with _ | av
    · rw [harch] at hok; simp at hok
    · rw [harch] at hok
      cases av with
      | num n => simp at hok
      | str s => simp at hok
      | bool b => simp at hok
      | null => simp at hok
      | arr xs => simp at hok
      | obj afs =>
        dsimp only at hok
        rcases hak : dLookup afs "arch_kwargs" with _ | akv
        · rw [hak] at hok; simp at hok
        · rw [hak] at hok
          cases akv with
          | num n => simp at hok
          | str s => simp at hok
          | bool b => simp at hok
          | null => simp at hok
          | arr xs => simp at hok
          | obj ak =>
            simp only [Except.ok.injEq] at hok
            exact ⟨bfs, afs, ak, rfl, harch, hak, hok.symm⟩

/-! ### Field lemmas about the arch_kwargs edits -/

theorem editAK_nStages (S D W : Nat) (ak : List (String × JVal)) :
    dLookup (editAK S D W ak) "n_stages" = some (.num S) := by
  simp only [editAK]
  split_ifs <;> simp [dLookup_dInsert]

theorem editAK_feats (S D W : Nat) (ak : List (String × JVal)) :
    dLookup (editAK S D W ak) "features_per_stage"
      = some (.arr ((featsGo W S).map jOfNat)) := by
  simp only [editAK]
  split_ifs <;> simp [dLookup_dInsert]

theorem editAK_nConv (S D W : Nat) (ak : List (String × JVal)) :
    dLookup (editAK S D W ak) "n_conv_per_stage"
      = some (.arr (List.replicate S (.num D))) := by
  simp only [editAK]
  split_ifs <;> simp [dLookup_dInsert]

theorem editAK_nConvDec (S D W : Nat) (ak : List (String × JVal)) :
    dLookup (editAK S D W ak) "n_conv_per_stage_decoder"
      = some (.arr (List.replicate (S - 1) (.num D))) := by
  simp only [editAK]
  split_ifs <;> simp [dLookup_dInsert]

/-- The raw base schedules, as the script reads them from the copied
`arch_kwargs` (missing or non-array values read as `[]`). -/
def ksRaw (ak : List (String × JVal)) : List JVal :=
  asArr ((dLookup ak "kernel_sizes").getD (.arr []))

/-- The raw base stride schedule. -/
def stRaw (ak : List (String × JVal)) : List JVal :=
  asArr ((dLookup ak "strides").getD (.arr []))

/-- Reconciliation result: when the kernel-size and stride schedules
have equal base length, the derived entry stores each base schedule
truncated to `S` entries and padded with its own last element (or the
fallback) up to `S` entries. -/
theorem editAK_ks_st (S D W : Nat) (ak : List (String × JVal))
    (hlen : (ksRaw ak).length = (stRaw ak).length) :
    asArr ((dLookup (editAK S D W ak) "kernel_sizes").getD (.arr []))
      = (ksRaw ak).take S
        ++ List.replicate (S - (ksRaw ak).length) ((ksRaw ak).getLastD defaultKernel)
    ∧ asArr ((dLookup (editAK S D W ak) "strides").getD (.arr []))
      = (stRaw ak).take S
        ++ List.replicate (S - (stRaw ak).length) ((stRaw ak).getLastD defaultStride) := by
  simp only [ksRaw, stRaw] at hlen ⊢
  simp only [editAK]
  split_ifs with hcond hgt
  · -- some length mismatched and S > ks.length: both are extended
    simp only [dLookup_dInsert] at hcond hgt ⊢
    simp at hcond hgt ⊢
    rw [List.take_of_length_le hgt.le, List.take_of_length_le (hlen ▸ hgt.le)]
    exact ⟨rfl, rfl⟩
  · -- some length mismatched and S ≤ ks.length: both are truncated
    simp only [dLookup_dInsert] at hcond hgt ⊢
    simp at hcond hgt ⊢
    have hst : S ≤ (asArr ((dLookup ak "strides").getD (.arr []))).length := by omega
    rw [Nat.sub_eq_zero_of_le hgt, Nat.sub_eq_zero_of_le hst]
    simp [asArr]
  · -- both schedules already have length S: untouched
    simp only [dLookup_dInsert] at hcond ⊢
    simp at hcond ⊢
    obtain ⟨hk, hs⟩ := hcond
    rw [List.take_of_length_le hk.le, List.take_of_length_le hs.le, hk, hs]
    simp

/-! ### Generation-loop lemmas -/

/-- The loop never overwrites an existing binding: it inserts only
names whose lookup failed. -/
theorem genLoop_preserve {base : JVal} {ts : List (Nat × Nat × Nat)}
    {configs configs2 : List (String × JVal)} {a s a2 s2 : Nat}
    (h : genLoop base ts configs a s = .ok (configs2, a2, s2))
    {n : String} {v : JVal} (hn : dLookup configs n = some v) :
    dLookup configs2 n = some v := by
  induction ts generalizing configs a s with
  | nil =>
    simp only [genLoop, Except.ok.injEq, Prod.mk.injEq] at h
    exact h.1 ▸ hn
  | cons t rest ih =>
    simp only [genLoop] at h
    split at h
    · exact ih h hn
    · rename_i hc
      split at h
      · simp at h
      · rename_i cfg hd
        refine ih h ?_
        rw [dLookup_dInsert]
        split_ifs with he
        · exfalso
          rw [he, hn] at hc
          simp at hc
        · exact hn

/-- Present keys stay present through the loop. -/
theorem genLoop_mono {base : JVal} {ts : List (Nat × Nat × Nat)}
    {configs configs2 : List (String × JVal)} {a s a2 s2 : Nat}
    (h : genLoop base ts configs a s = .ok (configs2, a2, s2))
    {n : String} (hn : (dLookup configs n).isSome) :
    (dLookup configs2 n).isSome := by
  obtain ⟨v, hv⟩ := Option.isSome_iff_exists.1 hn
  rw [genLoop_preserve h hv]
  rfl

/-- After a successful pass, every triplet's name is present. -/
theorem genLoop_covers {base : JVal} {ts : List (Nat × Nat × Nat)}
    {configs configs2 : List (String × JVal)} {a s a2 s2 : Nat}
    (h : genLoop base ts configs a s = .ok (configs2, a2, s2)) :
    ∀ t ∈ ts, (dLookup configs2 (nameOf t)).isSome := by
  induction ts generalizing configs a s with
  | nil => simp
  | cons t rest ih =>
    intro u hu
    simp only [genLoop] at h
    split at h
    · rename_i hc
      rcases List.mem_cons.1 hu with he | hr
      · exact he ▸ genLoop_mono h hc
      · exact ih h u hr
    · rename_i hc
      split at h
      · simp at h
      · rename_i cfg hd
        rcases List.mem_cons.1 hu with he | hr
        · subst he
          exact genLoop_mono h (by rw [dLookup_dInsert, if_pos rfl]; rfl)
        · exact ih h u hr

/-- When every triplet's name is already present, the loop changes
nothing, adds nothing, and skips once per triplet. -/
theorem genLoop_all_present {base : JVal} {ts : List (Nat × Nat × Nat)}
    {configs : List (String × JVal)} {a s : Nat}
    (hp : ∀ t ∈ ts, (dLookup configs (nameOf t)).isSome) :
    genLoop base ts configs a s = .ok (configs, a, s + ts.length) := by
  induction ts generalizing s with
  | nil => simp [genLoop]
  | cons t rest ih =>
    simp only [genLoop]
    rw [if_pos (hp t (List.mem_cons_self t rest))]
    rw [ih fun u hu => hp u (List.mem_cons_of_mem t hu)]
    have : s + 1 + rest.length = s + (t :: rest).length := by
      simp [List.length_cons]; omega
    rw [this]

/-- A base entry without the `architecture.arch_kwargs` substructure
makes every derivation fail with the format diagnostic. -/
theorem derive_error_of_bad {base : JVal} (hbad : hasAK base = false)
    (S D W : Nat) : derive S D W base = .error fmtErrMsg := by
  cases base with
  | num n => rfl
  | str s => rfl
  | bool b => rfl
  | null => rfl
  | arr xs => rfl
  | obj bfs =>
    simp only [hasAK] at hbad
    simp only [derive]
    rcases harch : dLookup bfs "architecture" with _ | av
    · rfl
    · rw [harch] at hbad
      cases av <;> try rfl
      rename_i afs
      dsimp only at hbad ⊢
      rcases hak : dLookup afs "arch_kwargs" with _ | akv
      · rfl
      · rw [hak] at hbad
        cases akv <;> simp_all

/-- With an invalid base, the loop fails as soon as it reaches a
triplet whose name is not yet present. -/
theorem genLoop_error_of_bad {base : JVal} (hbad : hasAK base = false)
    {ts : List (Nat × Nat × Nat)} {configs : List (String × JVal)} {a s : Nat}
    (habs : ∃ t ∈ ts, dLookup configs (nameOf t) = none) :
    genLoop base ts configs a s = .error fmtErrMsg := by
  induction ts generalizing a s with
  | nil => simp at habs
  | cons t rest ih =>
    obtain ⟨u, hu, hun⟩ := habs
    simp only [genLoop]
    by_cases hc : (dLookup configs (nameOf t)).isSome
    · rw [if_pos hc]
      refine ih ⟨u, ?_, hun⟩
      rcases List.mem_cons.1 hu with he | hr
      · subst he; rw [hun] at hc; simp at hc
      · exact hr
    · rw [if_neg hc, derive_error_of_bad hbad]

/-- Structure of a successful generation pass. -/
theorem runGenerator_ok_elim {doc doc2 : JVal} {a s : Nat}
    (h : runGenerator doc = .ok (doc2, a, s)) :
    ∃ dfs configs base configs2,
      doc = .obj dfs ∧ dLookup dfs "configurations" = some (.obj configs) ∧
      dLookup configs "3d_fullres" = some base ∧
      genLoop base tripletsList configs 0 0 = .ok (configs2, a, s) ∧
      doc2 = .obj (dInsert dfs "configurations" (.obj configs2)) := by
  cases doc with
  | num n => simp [runGenerator, objGet] at h
  | str s => simp [runGenerator, objGet] at h
  | bool b => simp [runGenerator, objGet] at h
  | null => simp [runGenerator, objGet] at h
  | arr xs => simp [runGenerator, objGet] at h
  | obj dfs =>
    simp only [runGenerator, objGet] at h
    rcases hc : dLookup dfs "configurations" with _ | cv
    · rw [hc] at h; simp at h
    · rw [hc] at h
      cases cv with
      | num n => simp at h
      | str s => simp at h
      | bool b => simp at h
      | null => simp at h
      | arr xs => simp at h
      | obj configs =>
        dsimp only at h
        rcases hb : dLookup configs "3d_fullres" with _ | base
        · rw [hb] at h; simp at h
        · rw [hb] at h
          dsimp only at h
          rcases hg : genLoop base tripletsList configs 0 0 with e | r
          · rw [hg] at h; simp at h
          · rw [hg] at h
            obtain ⟨configs2, a2, s2⟩ := r
            dsimp only at h
            simp only [Except.ok.injEq, Prod.mk.injEq] at h
            obtain ⟨hdoc, ha, hs⟩ := h
            subst ha; subst hs
            exact ⟨dfs, configs, base, configs2, rfl, hc, hb, hg, by
              rw [← hdoc]; rfl⟩

/-- Reading `arch_kwargs` keys of a derived entry goes through the
edited field list. -/
theorem akGet_ok {S D W : Nat} (bfs afs ak : List (String × JVal)) (k : String) :
    akGet (.obj (dInsert bfs "architecture"
      (.obj (dInsert afs "arch_kwargs" (.obj (editAK S D W ak)))))) k
      = dLookup (editAK S D W ak) k := by
  simp [akGet, objGet, dLookup_dInsert]

/-- Reading `arch_kwargs` keys of the base entry goes through its own
field list. -/
theorem akGet_base {base : JVal} {bfs afs ak : List (String × JVal)}
    (hb : base = .obj bfs) (harch : dLookup bfs "architecture" = some (.obj afs))
    (hak : dLookup afs "arch_kwargs" = some (.obj ak)) (k : String) :
    akGet base k = dLookup ak k := by
  subst hb
  simp [akGet, objGet, harch, hak]

/-- Stage counts are positive and widths at most 512, over the 18
triplets. -/
theorem triplets_facts : ∀ t ∈ tripletsList, 0 < t.1 ∧ t.2.2 ≤ 512 := by decide

/-! ### Claim theorems: derivation-level properties -/

/-- C1 (amended): for every derived variant with target stage count S,
whenever the base kernel-size and stride schedules have equal length,
after reconciliation both stored schedules have length exactly S; each
is its base schedule truncated to S entries and extended by repeating
its own last element (or the fallback [3,3,3] / [2,2,2] if empty) up
to length S. -/
theorem C1_reconcile {S D W : Nat} {base cfg : JVal}
    (hlen : (ksOf base).length = (stOf base).length)
    (hok : derive S D W base = .ok cfg) :
    ksOf cfg = (ksOf base).take S
      ++ List.replicate (S - (ksOf base).length) ((ksOf base).getLastD defaultKernel)
    ∧ stOf cfg = (stOf base).take S
      ++ List.replicate (S - (stOf base).length) ((stOf base).getLastD defaultStride)
    ∧ (ksOf cfg).length = S ∧ (stOf cfg).length = S := by
  obtain ⟨bfs, afs, ak, hb, harch, hak, hcfg⟩ := derive_ok_elim hok
  have hks : ksOf base = ksRaw ak := by
    rw [ksOf, akGet_base hb harch hak, ksRaw]
  have hst : stOf base = stRaw ak := by
    rw [stOf, akGet_base hb harch hak, stRaw]
  have hmain := editAK_ks_st S D W ak (by rw [← hks, ← hst]; exact hlen)
  have hkc : ksOf cfg = (ksRaw ak).take S
      ++ List.replicate (S - (ksRaw ak).length) ((ksRaw ak).getLastD defaultKernel) := by
    rw [hcfg, ksOf, akGet_ok]
    exact hmain.1
  have hsc : stOf cfg = (stRaw ak).take S
      ++ List.replicate (S - (stRaw ak).length) ((stRaw ak).getLastD defaultStride) := by
    rw [hcfg, stOf, akGet_ok]
    exact hmain.2
  rw [hks, hst]
  refine ⟨hkc, hsc, ?_, ?_⟩
  · rw [hkc]
    simp only [List.length_append, List.length_take, List.length_replicate]
    omega
  · rw [hsc]
    simp only [List.length_append, List.length_take, List.length_replicate]
    omega

/-- C2 (amended): for every base entry whose kernel-size and stride
schedules have equal length and every derived configuration, the
array-valued fields have lengths consistent with its own `n_stages`
(= S): `features_per_stage`, `n_conv_per_stage`, `kernel_sizes` and
`strides` have length S and `n_conv_per_stage_decoder` length S - 1. -/
theorem C2_invariant {S D W : Nat} {base cfg : JVal}
    (hlen : (ksOf base).length = (stOf base).length)
    (hok : derive S D W base = .ok cfg) :
    akGet cfg "n_stages" = some (.num S)
    ∧ (featsOf cfg).length = S
    ∧ (nConvOf cfg).length = S
    ∧ (nConvDecOf cfg).length = S - 1
    ∧ (ksOf cfg).length = S ∧ (stOf cfg).length = S := by
  obtain ⟨bfs, afs, ak, hb, harch, hak, hcfg⟩ := derive_ok_elim hok
  have hks : ksOf base = ksRaw ak := by
    rw [ksOf, akGet_base hb harch hak, ksRaw]
  have hst : stOf base = stRaw ak := by
    rw [stOf, akGet_base hb harch hak, stRaw]
  have hmain := editAK_ks_st S D W ak (by rw [← hks, ← hst]; exact hlen)
  refine ⟨?_, ?_, ?_, ?_, ?_, ?_⟩
  · rw [hcfg, akGet_ok]
    exact editAK_nStages S D W ak
  · rw [hcfg, featsOf, akGet_ok, editAK_feats]
    simp only [Option.getD_some, asArr, List.length_map, featsGo_length]
  · rw [hcfg, nConvOf, akGet_ok, editAK_nConv]
    simp only [Option.getD_some, asArr, List.length_replicate]
  · rw [hcfg, nConvDecOf, akGet_ok, editAK_nConvDec]
    simp only [Option.getD_some, asArr, List.length_replicate]
  · rw [hcfg, ksOf, akGet_ok, hmain.1]
    simp only [List.length_append, List.length_take, List.length_replicate]
    omega
  · rw [hcfg, stOf, akGet_ok, hmain.2]
    simp only [List.length_append, List.length_take, List.length_replicate]
    omega

/-- C3: for every triplet in the 18, the derived entry's
`features_per_stage` has length S, element i equal to
min(W * 2^i, 512), first element W, is non-decreasing, and never
exceeds 512. -/
theorem C3_feats {S D W : Nat} {base cfg : JVal}
    (ht : (S, D, W) ∈ tripletsList)
    (hok : derive S D W base = .ok cfg) :
    featsNat cfg = (List.range S).map (fun i => min (W * 2 ^ i) 512)
    ∧ (featsNat cfg).length = S
    ∧ (featsNat cfg).head? = some W
    ∧ List.Sorted (· ≤ ·) (featsNat cfg)
    ∧ ∀ x ∈ featsNat cfg, x ≤ 512 := by
  obtain ⟨hS, hW⟩ := triplets_facts (S, D, W) ht
  obtain ⟨bfs, afs, ak, hb, harch, hak, hcfg⟩ := derive_ok_elim hok
  have hfe : featsOf cfg = (featsGo W S).map jOfNat := by
    rw [hcfg, featsOf, akGet_ok, editAK_feats]
    simp only [Option.getD_some, asArr]
  have hnat : featsNat cfg = featsGo W S := by
    rw [featsNat, hfe, List.map_map]
    have hcomp : jnum ∘ jOfNat = id := by
      funext n
      simp [jnum, jOfNat, Function.comp]
    rw [hcomp, List.map_id]
  rw [hnat, featsGo_eq]
  refine ⟨rfl, by simp, ?_, ?_, ?_⟩
  · obtain ⟨n, rfl⟩ : ∃ n, S = n + 1 := ⟨S - 1, by omega⟩
    rw [List.range_succ_eq_map]
    simp [min_eq_left hW]
  · refine List.Pairwise.map _ ?_ (List.pairwise_lt_range S)
    intro i j hij
    exact min_le_min
      (Nat.mul_le_mul_left _ (Nat.pow_le_pow_right (by norm_num) hij.le)) le_rfl
  · simp only [List.mem_map]
    rintro x ⟨i, _, rfl⟩
    exact min_le_right _ _

/-- C7: every derived entry has `n_conv_per_stage` equal to S copies
of D and `n_conv_per_stage_decoder` equal to S - 1 copies of D. -/
theorem C7_conv {S D W : Nat} {base cfg : JVal}
    (hok : derive S D W base = .ok cfg) :
    nConvOf cfg = List.replicate S (.num D)
    ∧ nConvDecOf cfg = List.replicate (S - 1) (.num D) := by
  obtain ⟨bfs, afs, ak, hb, harch, hak, hcfg⟩ := derive_ok_elim hok
  subst hcfg
  constructor
  · simp [nConvOf, akGet_ok, editAK_nConv, asArr]
  · simp [nConvDecOf, akGet_ok, editAK_nConvDec, asArr]

/-! ### Claim theorems: generation-pass properties -/

/-- C4: the generation pass is idempotent: after a successful run, a
second run over the resulting document adds 0 entries, skips all 18
triplet names, and returns the document unchanged. -/
theorem C4_idempotent {doc doc2 : JVal} {a s : Nat}
    (h : runGenerator doc = .ok (doc2, a, s)) :
    runGenerator doc2 = .ok (doc2, 0, 18) := by
  obtain ⟨dfs, configs, base, configs2, hdoc, hc, hb, hg, hdoc2⟩ := runGenerator_ok_elim h
  have hbase2 : dLookup configs2 "3d_fullres" = some base := genLoop_preserve hg hb
  have hcov : ∀ t ∈ tripletsList, (dLookup configs2 (nameOf t)).isSome := genLoop_covers hg
  subst hdoc2
  have hog : objGet (JVal.obj (dInsert dfs "configurations" (.obj configs2)))
      "configurations" = some (.obj configs2) := by
    simp [objGet, dLookup_dInsert]
  simp only [runGenerator]
  rw [hog]
  dsimp only
  rw [hbase2]
  dsimp only
  rw [genLoop_all_present hcov]
  dsimp only [setConfigs]
  rw [dInsert_dInsert_self]
  rfl

/-- C9: the pass only inserts fresh names: every binding present in
the input `configurations` mapping keeps its exact value (in
particular the base entry `3d_fullres` is unchanged), and every other
top-level key of the document is untouched. -/
theorem C9_frame {doc doc2 : JVal} {a s : Nat}
    (h : runGenerator doc = .ok (doc2, a, s)) :
    (∀ n v, dLookup (configsOf doc) n = some v → dLookup (configsOf doc2) n = some v)
    ∧ dLookup (configsOf doc2) "3d_fullres" = dLookup (configsOf doc) "3d_fullres"
    ∧ ∀ k, k ≠ "configurations" → objGet doc2 k = objGet doc k := by
  obtain ⟨dfs, configs, base, configs2, hdoc, hc, hb, hg, hdoc2⟩ := runGenerator_ok_elim h
  subst hdoc
  subst hdoc2
  have hco : configsOf (JVal.obj dfs) = configs := by
    simp [configsOf, objGet, hc]
  have hco2 : configsOf (JVal.obj (dInsert dfs "configurations" (.obj configs2)))
      = configs2 := by
    simp [configsOf, objGet, dLookup_dInsert]
  refine ⟨?_, ?_, ?_⟩
  · intro n v hn
    rw [hco2]
    rw [hco] at hn
    exact genLoop_preserve hg hn
  · rw [hco, hco2, hb]
    exact genLoop_preserve hg hb
  · intro k hk
    simp [objGet, dLookup_dInsert, Ne.symm hk]

/-! ### Script-level lemmas -/

/-- When environment, dataset folder and plans file are all in place
and the generation pass fails, the script dies after the read. -/
theorem runScript_gen_error {dir : String} {listing : List String} {id : Nat}
    {doc : JVal} {e : String} (hdir : dir ≠ "")
    (hfind : (listing.find? fun f => strStarts ("Dataset" ++ pad3 id) f).isSome)
    (hgen : runGenerator doc = .error e) :
    runScript (some dir) listing id true doc = die e [.listDir, .readPlans] doc := by
  obtain ⟨ds, hds⟩ := Option.isSome_iff_exists.1 hfind
  simp only [runScript, if_neg hdir]
  rw [hds]
  simp only [if_true]
  rw [hgen]

/-- When environment, dataset folder and plans file are all in place
and the generation pass succeeds, the script writes backup and plans
exactly when at least one entry was added. -/
theorem runScript_gen_ok {dir : String} {listing : List String} {id : Nat}
    {doc doc2 : JVal} {a s : Nat} (hdir : dir ≠ "")
    (hfind : (listing.find? fun f => strStarts ("Dataset" ++ pad3 id) f).isSome)
    (hgen : runGenerator doc = .ok (doc2, a, s)) :
    runScript (some dir) listing id true doc =
      if 0 < a then
        ⟨0, none, [.listDir, .readPlans, .writeBackup, .writePlans], doc2, a, s⟩
      else ⟨0, none, [.listDir, .readPlans], doc, a, s⟩ := by
  obtain ⟨ds, hds⟩ := Option.isSome_iff_exists.1 hfind
  simp only [runScript, if_neg hdir]
  rw [hds]
  simp only [if_true]
  rw [hgen]

/-- A document without a `configurations` mapping holding `3d_fullres`
makes the generation pass fail with the base diagnostic. -/
theorem runGenerator_missing_base {doc : JVal}
    (hnone : dLookup (configsOf doc) "3d_fullres" = none) :
    runGenerator doc = .error baseErrMsg := by
  cases doc with
  | num n => rfl
  | str s => rfl
  | bool b => rfl
  | null => rfl
  | arr xs => rfl
  | obj dfs =>
    simp only [runGenerator, objGet]
    rcases hcv : dLookup dfs "configurations" with _ | cv
    · rfl
    · cases cv with
      | num n => rfl
      | str s => rfl
      | bool b => rfl
      | null => rfl
      | arr xs => rfl
      | obj configs =>
        dsimp only
        have hx : configsOf (JVal.obj dfs) = configs := by
          simp [configsOf, objGet, hcv]
        rw [hx] at hnone
        rw [hnone]

/-- A base entry lookup in `configsOf` forces the document shape. -/
theorem configsOf_some_elim {doc : JVal} {base : JVal}
    (hb : dLookup (configsOf doc) "3d_fullres" = some base) :
    ∃ dfs configs, doc = .obj dfs
      ∧ dLookup dfs "configurations" = some (.obj configs)
      ∧ configsOf doc = configs := by
  cases doc with
  | num n => simp [configsOf, objGet, dLookup] at hb
  | str s => simp [configsOf, objGet, dLookup] at hb
  | bool b => simp [configsOf, objGet, dLookup] at hb
  | null => simp [configsOf, objGet, dLookup] at hb
  | arr xs => simp [configsOf, objGet, dLookup] at hb
  | obj dfs =>
    rcases hcv : dLookup dfs "configurations" with _ | cv
    · simp [configsOf, objGet, hcv, dLookup] at hb
    · cases cv with
      | obj configs => exact ⟨dfs, configs, rfl, hcv, by simp [configsOf, objGet, hcv]⟩
      | num n => simp [configsOf, objGet, hcv, dLookup] at hb
      | str s => simp [configsOf, objGet, hcv, dLookup] at hb
      | bool b => simp [configsOf, objGet, hcv, dLookup] at hb
      | null => simp [configsOf, objGet, hcv, dLookup] at hb
      | arr xs => simp [configsOf, objGet, hcv, dLookup] at hb

/-- C5 (amended): with the environment and dataset folder in place and
the plans file present, the run terminates fatally (exit code 1, an
`Error:` diagnostic) whenever the document lacks a `configurations`
mapping containing `3d_fullres`; when the base entry lacks the
`architecture.arch_kwargs` substructure, it terminates fatally
provided at least one of the 18 variant names is not already present
(the check is reached only for names that are actually derived). -/
theorem C5_format_error {dir : String} {listing : List String} {id : Nat} {doc : JVal}
    (hdir : dir ≠ "")
    (hfind : (listing.find? fun f => strStarts ("Dataset" ++ pad3 id) f).isSome) :
    (dLookup (configsOf doc) "3d_fullres" = none →
      (runScript (some dir) listing id true doc).exitCode = 1
      ∧ (runScript (some dir) listing id true doc).errLine = some ("Error: " ++ baseErrMsg))
    ∧ ∀ base, dLookup (configsOf doc) "3d_fullres" = some base → hasAK base = false →
        (∃ t ∈ tripletsList, dLookup (configsOf doc) (nameOf t) = none) →
        (runScript (some dir) listing id true doc).exitCode = 1
        ∧ (runScript (some dir) listing id true doc).errLine
            = some ("Error: " ++ fmtErrMsg) := by
  constructor
  · intro hnone
    rw [runScript_gen_error hdir hfind (runGenerator_missing_base hnone)]
    exact ⟨rfl, rfl⟩
  · intro base hb hbad habs
    obtain ⟨dfs, configs, hdoc, hcv, hco⟩ := configsOf_some_elim hb
    have hgen : runGenerator doc = .error fmtErrMsg := by
      subst hdoc
      simp only [runGenerator, objGet]
      rw [hcv]
      dsimp only
      rw [hco] at hb habs
      rw [hb]
      dsimp only
      rw [genLoop_error_of_bad hbad habs]
    rw [runScript_gen_error hdir hfind hgen]
    exact ⟨rfl, rfl⟩

theorem writeBackup_mem_full : FileOp.writeBackup ∈
    [FileOp.listDir, FileOp.readPlans, FileOp.writeBackup, FileOp.writePlans] := by decide

theorem writeBackup_notin_lr :
    FileOp.writeBackup ∉ [FileOp.listDir, FileOp.readPlans] := by decide

theorem writePlans_notin_lr :
    FileOp.writePlans ∉ [FileOp.listDir, FileOp.readPlans] := by decide

theorem writeBackup_notin_l : FileOp.writeBackup ∉ [FileOp.listDir] := by decide

theorem writePlans_notin_l : FileOp.writePlans ∉ [FileOp.listDir] := by decide

theorem writeBackup_notin_nil : FileOp.writeBackup ∉ ([] : List FileOp) := by decide

theorem writePlans_notin_nil : FileOp.writePlans ∉ ([] : List FileOp) := by decide

/-- C6: with the pipeline in place and a successful pass, a backup is
written iff at least one entry was added; when nothing was added
(in particular when all 18 names already exist) the plans file is not
rewritten and the on-disk document is unchanged. -/
theorem C6_backup_iff_added {dir : String} {listing : List String} {id : Nat}
    {doc doc2 : JVal} {a s : Nat} (hdir : dir ≠ "")
    (hfind : (listing.find? fun f => strStarts ("Dataset" ++ pad3 id) f).isSome)
    (hgen : runGenerator doc = .ok (doc2, a, s)) :
    (FileOp.writeBackup ∈ (runScript (some dir) listing id true doc).ops ↔ 0 < a)
    ∧ (a = 0 → (runScript (some dir) listing id true doc).ops = [.listDir, .readPlans]
        ∧ FileOp.writePlans ∉ (runScript (some dir) listing id true doc).ops
        ∧ (runScript (some dir) listing id true doc).disk = doc)
    ∧ ((∀ t ∈ tripletsList, (dLookup (configsOf doc) (nameOf t)).isSome) → a = 0) := by
  rw [runScript_gen_ok hdir hfind hgen]
  refine ⟨?_, ?_, ?_⟩
  · by_cases ha : 0 < a
    · rw [if_pos ha]
      exact iff_of_true writeBackup_mem_full ha
    · rw [if_neg ha]
      exact iff_of_false writeBackup_notin_lr ha
  · intro ha
    subst ha
    rw [if_neg (by omega)]
    exact ⟨rfl, writePlans_notin_lr, rfl⟩
  · intro hp
    obtain ⟨dfs, configs, base, configs2, hdoc, hc, hb, hg, hdoc2⟩ :=
      runGenerator_ok_elim hgen
    have hco : configsOf doc = configs := by
      subst hdoc
      simp [configsOf, objGet, hc]
    rw [hco] at hp
    rw [genLoop_all_present hp] at hg
    simp only [Except.ok.injEq, Prod.mk.injEq] at hg
    exact hg.2.1.symm

/-- C8: when the environment base directory is unset or empty, the
script exits with status 1, prints an `Error:` line containing
"not set", touches no file, and leaves the document unchanged. -/
theorem C8_env_unset {env : Option String} {listing : List String} {id : Nat}
    {pe : Bool} {doc : JVal}
    (henv : env = none ∨ env = some "") :
    (runScript env listing id pe doc).exitCode = 1
    ∧ (runScript env listing id pe doc).ops = []
    ∧ (runScript env listing id pe doc).disk = doc
    ∧ (runScript env listing id pe doc).errLine
        = some ("Error: nnUNet_preprocessed environment variable " ++ "not set" ++ "") := by
  rcases henv with he | he <;> subst he <;> exact ⟨rfl, rfl, rfl, rfl⟩

/-- C10: every fatal termination (exit code 1) leaves the on-disk
document unmodified and performs neither the backup copy nor the
plans rewrite: the document is written only after the whole pass
succeeds with at least one addition. -/
theorem C10_fatal_no_write {env : Option String} {listing : List String} {id : Nat}
    {pe : Bool} {doc : JVal}
    (hfatal : (runScript env listing id pe doc).exitCode = 1) :
    (runScript env listing id pe doc).disk = doc
    ∧ FileOp.writePlans ∉ (runScript env listing id pe doc).ops
    ∧ FileOp.writeBackup ∉ (runScript env listing id pe doc).ops := by
  cases env with
  | none => exact ⟨rfl, writePlans_notin_nil, writeBackup_notin_nil⟩
  | some dir =>
    by_cases hd : dir = ""
    · subst hd
      exact ⟨rfl, writePlans_notin_nil, writeBackup_notin_nil⟩
    · rcases hf : listing.find? fun f => strStarts ("Dataset" ++ pad3 id) f with _ | ds
      · simp only [runScript, if_neg hd] at hfatal ⊢
        rw [hf] at hfatal ⊢
        exact ⟨rfl, writePlans_notin_l, writeBackup_notin_l⟩
      · cases pe with
        | false =>
          simp only [runScript, if_neg hd] at hfatal ⊢
          rw [hf] at hfatal ⊢
          exact ⟨rfl, writePlans_notin_l, writeBackup_notin_l⟩
        | true =>
          rcases hg : runGenerator doc with e | r
          · rw [runScript_gen_error hd (by rw [hf]; rfl) hg]
            exact ⟨rfl, writePlans_notin_lr, writeBackup_notin_lr⟩
          · obtain ⟨doc2, a, s⟩ := r
            rw [runScript_gen_ok hd (by rw [hf]; rfl) hg] at hfatal ⊢
            by_cases ha : 0 < a
            · rw [if_pos ha] at hfatal
              simp at hfatal
            · rw [if_neg ha]
              exact ⟨rfl, writePlans_notin_lr, writeBackup_notin_lr⟩

/-! ### Counterexamples -/

/-- C1 counterexample: deriving at S = 4 from a base whose
`kernel_sizes` has 6 stage descriptors but whose `strides` has 3
leaves `strides` at length 3, not 4 — the truncate-vs-extend choice
looks only at the kernel-size schedule's length. -/
theorem C1_counterexample :
    ksStLens (derive 4 2 16 c1Base) = some (4, 3)
    ∧ some ((4 : Nat), (3 : Nat)) ≠ some ((4 : Nat), (4 : Nat)) :=
  ⟨rfl, by decide⟩

/-- C2 counterexample: deriving at S = 5 from a base whose
`kernel_sizes` has 2 stage descriptors but whose `strides` has 7
leaves `strides` at length 7, not 5, violating the length invariant. -/
theorem C2_counterexample :
    ksStLens (derive 5 2 16 c2Base) = some (5, 7)
    ∧ some ((5 : Nat), (7 : Nat)) ≠ some ((5 : Nat), (5 : Nat)) :=
  ⟨rfl, by decide⟩

/-- C5 counterexample: with a base entry lacking
`architecture.arch_kwargs` but all 18 variant names already present,
the run does not terminate fatally: it exits 0, adding nothing —
the substructure check sits after the skip check inside the loop. -/
theorem C5_counterexample :
    hasAK c5Base = false
    ∧ dLookup (configsOf c5Doc) "3d_fullres" = some c5Base
    ∧ runGenerator c5Doc = .ok (c5Doc, 0, 18)
    ∧ (runScript (some "/base") ["Dataset005_Test"] 5 true c5Doc).exitCode = 0 :=
  ⟨rfl, rfl, rfl, rfl⟩

/-! ### Witnesses -/

/-- Witness for C1: the scenario base (5-stage schedules) derived at
S = 6 gets both schedules extended to 6 entries. -/
theorem C1_witness :
    ksOf wC1cfg = List.replicate 6 defaultKernel ∧ (stOf wC1cfg).length = 6 := by
  have hlen : (ksOf wBase).length = (stOf wBase).length := rfl
  have hok : derive 6 2 16 wBase = Except.ok wC1cfg := rfl
  have h := C1_reconcile hlen hok
  refine ⟨?_, h.2.2.2⟩
  rw [h.1]
  rfl

/-- Witness for C2: the scenario base derived at S = 4 satisfies the
length invariant. -/
theorem C2_witness :
    (featsOf wC2cfg).length = 4 ∧ (nConvOf wC2cfg).length = 4
    ∧ (nConvDecOf wC2cfg).length = 3
    ∧ (ksOf wC2cfg).length = 4 ∧ (stOf wC2cfg).length = 4 := by
  have hlen : (ksOf wBase).length = (stOf wBase).length := rfl
  have hok : derive 4 3 32 wBase = Except.ok wC2cfg := rfl
  have h := C2_invariant hlen hok
  exact ⟨h.2.1, h.2.2.1, h.2.2.2.1, h.2.2.2.2.1, h.2.2.2.2.2⟩

/-- Witness for C3: at (5, 2, 64) the width schedule is
[64, 128, 256, 512, 512]. -/
theorem C3_witness : featsNat wC3cfg = [64, 128, 256, 512, 512] := by
  have hok : derive 5 2 64 wBase = Except.ok wC3cfg := rfl
  have h := (C3_feats (by decide) hok).1
  rw [h]
  rfl

/-- Witness for C4: after a run over the scenario document, a second
run adds nothing and skips all 18. -/
theorem C4_witness : runGenerator wOut = Except.ok (wOut, 0, 18) := by
  have hfirst : runGenerator wDoc = Except.ok (wOut, 18, 0) := rfl
  exact C4_idempotent hfirst

/-- Witness for C5: both malformed documents are rejected fatally. -/
theorem C5_witness :
    (runScript (some "/base") ["Dataset001_Test"] 1 true c5aDoc).exitCode = 1
    ∧ (runScript (some "/base") ["Dataset001_Test"] 1 true c5bDoc).exitCode = 1 := by
  have hdir : ("/base" : String) ≠ "" := by decide
  have hfind : (List.find? (fun f => strStarts ("Dataset" ++ pad3 1) f)
      ["Dataset001_Test"]).isSome = true := rfl
  constructor
  · have hnone : dLookup (configsOf c5aDoc) "3d_fullres" = none := rfl
    exact ((C5_format_error hdir hfind).1 hnone).1
  · have hsome : dLookup (configsOf c5bDoc) "3d_fullres" = some c5Base := rfl
    have hbad : hasAK c5Base = false := rfl
    have habs : ∃ t ∈ tripletsList, dLookup (configsOf c5bDoc) (nameOf t) = none :=
      ⟨(4, 2, 16), by decide, rfl⟩
    exact ((C5_format_error hdir hfind).2 c5Base hsome hbad habs).1

/-- Witness for C6: the run over the scenario document adds 18 entries
and writes the backup. -/
theorem C6_witness :
    FileOp.writeBackup ∈ (runScript (some "/base") ["Dataset002_Test"] 2 true wDoc).ops := by
  have hdir : ("/base" : String) ≠ "" := by decide
  have hfind : (List.find? (fun f => strStarts ("Dataset" ++ pad3 2) f)
      ["Dataset002_Test"]).isSome = true := rfl
  have hgen : runGenerator wDoc = Except.ok (wOut, 18, 0) := rfl
  have h := C6_backup_iff_added hdir hfind hgen
  exact h.1.2 (by decide)

/-- Witness for C7: at (4, 2, 16) the conv counts are 4 and 3 twos. -/
theorem C7_witness :
    nConvOf wC7cfg = List.replicate 4 (.num 2)
    ∧ nConvDecOf wC7cfg = List.replicate 3 (.num 2) := by
  have hok : derive 4 2 16 wBase = Except.ok wC7cfg := rfl
  exact C7_conv hok

/-- Witness for C8: with the environment value absent the script exits
1 without touching any file. -/
theorem C8_witness :
    (runScript none [] 0 false (JVal.obj [])).exitCode = 1
    ∧ (runScript none [] 0 false (JVal.obj [])).ops = [] := by
  have henv : (none : Option String) = none ∨ (none : Option String) = some "" :=
    Or.inl rfl
  exact ⟨(C8_env_unset henv).1, (C8_env_unset henv).2.1⟩

/-- Witness for C9: after the run over the scenario document, the base
entry is unchanged. -/
theorem C9_witness :
    dLookup (configsOf wOut) "3d_fullres" = dLookup (configsOf wDoc) "3d_fullres" := by
  have hgen : runGenerator wDoc = Except.ok (wOut, 18, 0) := rfl
  exact (C9_frame hgen).2.1

/-- Witness for C10: a mid-loop fatal run (one skip, then the missing
substructure) leaves the disk document untouched. -/
theorem C10_witness :
    (runScript (some "/base") ["Dataset003_Test"] 3 true c10Doc).disk = c10Doc
    ∧ FileOp.writePlans ∉ (runScript (some "/base") ["Dataset003_Test"] 3 true c10Doc).ops := by
  have hfatal : (runScript (some "/base") ["Dataset003_Test"] 3 true c10Doc).exitCode = 1 := rfl
  have h := C10_fatal_no_write hfatal
  exact ⟨h.1, h.2.1⟩

end UNetBench
